import Mathlib

/-!
# Verification of the ALAI ggwave HTTP facade (`app/main.py`)

Shallow embedding of the FastAPI application in `app/main.py`:
CLI binary resolution (`_ensure_cli_found`, `_iter_default_cli_dirs`,
`_possible_binary_names`), subprocess invocation (`_run_cli`), the
encode-command builder (`_build_encode_command`), the `/encode` and
`/decode` handlers, and the decode-output pattern (`DECODE_PATTERN`).

Conventions of the embedding:
* Filesystem paths are strings; `Path a / b` is `a ++ "/" ++ b`.
* Bytes (`bytes` payloads, stdout/stderr) are modelled as `String`
  (UTF-8 decode with `errors="ignore"` is modelled as the identity).
* `os.environ`, `Path.is_file`, `shutil.which`, `os.name` and the
  process working directory are packaged in an `Env` record.
* Subprocess execution is an oracle function supplied by the caller:
  it returns the `ProcessResult` (exit code, stdout, stderr) and, for
  the encoder, the bytes it wrote to the output path.
* Python string operations (`strip`, `lower`, `endswith`, substring
  membership) are modelled by character-level functions defined below.
-/

deriving instance DecidableEq for Except

namespace ALAI

/-- An HTTP error response, as carried by `fastapi.HTTPException`. -/
structure HTTPError where
  status : Nat
  detail : String
deriving DecidableEq

/-- Result of a completed subprocess (`subprocess.CompletedProcess`). -/
structure ProcessResult where
  returncode : Int
  stdout : String
  stderr : String
deriving DecidableEq

/-- The ambient OS state the module reads: environment variables,
the regular-file predicate over absolute paths, `shutil.which`,
`os.name`, the process working directory, and the module constant
`PROJECT_ROOT = Path(__file__).resolve().parents[1]` (an absolute
path fixed by the installation). -/
structure Env where
  vars : String → Option String
  isFile : String → Bool
  which : String → Option String
  osName : String
  cwd : String
  projectRoot : String

/-- `GGWAVE_ENCODE_ENV` from the source. -/
def GGWAVE_ENCODE_ENV : String := "GGWAVE_ENCODE"

/-- `GGWAVE_DECODE_ENV` from the source. -/
def GGWAVE_DECODE_ENV : String := "GGWAVE_DECODE"

/-- Python `str.strip()`: drop leading and trailing whitespace. -/
def pyStrip (s : String) : String :=
  ⟨((s.data.dropWhile Char.isWhitespace).reverse.dropWhile
      Char.isWhitespace).reverse⟩

/-- Python `str.lower()` (ASCII case folding suffices for the
binary names involved). -/
def strLower (s : String) : String :=
  ⟨s.data.map Char.toLower⟩

/-- Python `str.endswith(suffix)`. -/
def strEndsWith (s suffix : String) : Bool :=
  suffix.data.isSuffixOf s.data

/-- Whether a POSIX path string is absolute. -/
def isAbsPath (p : String) : Bool :=
  match p.data with
  | '/' :: _ => true
  | _ => false

/-- `pathlib.Path.is_file()`: a relative path is interpreted against
the process working directory, an absolute path as-is. -/
def pathIsFile (e : Env) (p : String) : Bool :=
  e.isFile (if isAbsPath p then p else e.cwd ++ "/" ++ p)

/-- Strict lexicographic comparison of char lists by code point;
models Python `str` comparison (used by `sorted`). -/
def listLtChar : List Char → List Char → Bool
  | [], [] => false
  | [], _ :: _ => true
  | _ :: _, [] => false
  | a :: as, b :: bs => if a < b then true else if b < a then false else listLtChar as bs

/-- `sorted` on a two-element set of distinct strings. -/
def sortedPair (a b : String) : List String :=
  if listLtChar b.data a.data then [b, a] else [a, b]

/-- `_possible_binary_names(name)`: the set `{name}`, plus `name + ".exe"`
on Windows (`os.name == "nt"`) when the name does not already end in
`.exe`, returned in sorted order. -/
def possibleBinaryNames (osName : String) (name : String) : List String :=
  if osName = "nt" && !(strEndsWith (strLower name) ".exe") then
    sortedPair name (name ++ ".exe")
  else [name]

/-- The `hints` list of `_iter_default_cli_dirs`. -/
def cliDirHints (root : String) : List String :=
  [root, root ++ "/external/ggwave", root ++ "/build",
   root ++ "/build/_deps/ggwave-build"]

/-- The `subdirs` list of `_iter_default_cli_dirs`. -/
def cliSubdirs : List String :=
  ["", "bin", "build", "build/bin", "build/examples", "examples"]

/-- The candidate directories of `_iter_default_cli_dirs` in generation
order, before the `seen`-set deduplication. -/
def rawCliDirs (root : String) : List String :=
  (cliDirHints root).flatMap fun b =>
    cliSubdirs.map fun s => if s = "" then b else b ++ "/" ++ s

/-- Order-preserving deduplication keeping first occurrences; models the
`seen` set of the `_iter_default_cli_dirs` generator. -/
def dedupFirst (l : List String) : List String :=
  go [] l
where
  go (seen : List String) : List String → List String
    | [] => []
    | c :: t => if seen.contains c then go seen t else c :: go (c :: seen) t

/-- `_iter_default_cli_dirs()`. -/
def iterDefaultCliDirs (root : String) : List String :=
  dedupFirst (rawCliDirs root)

/-- The `candidate_names` list built inside `_ensure_cli_found`. -/
def candidateNames (osName : String) (names : List String) : List String :=
  names.flatMap (possibleBinaryNames osName)

/-- The error detail raised when no executable is found anywhere. -/
def notFoundDetail (envVar : String) (cands : List String) : String :=
  "Unable to locate a ggwave executable. Looked for: " ++
    String.intercalate ", " cands ++
    ". Consider setting the " ++ envVar ++ " environment variable."

/-- The error detail raised when the environment override is set but is
not an existing regular file. -/
def overrideDetail (envVar override : String) : String :=
  "The environment variable " ++ envVar ++ " points to '" ++ override ++
    "', but the executable could not be found."

/-- `_ensure_cli_found(env_var=..., names=...)`: environment override
first (an empty value is falsy and ignored, like Python `if override:`),
then the well-known directories crossed with the candidate names
(directory-major), then `shutil.which`, else an error listing every
candidate name. -/
def ensureCliFound (e : Env) (envVar : String) (names : List String) :
    Except HTTPError String :=
  let cands := candidateNames e.osName names
  let fallback :=
    let pairs := (iterDefaultCliDirs e.projectRoot).flatMap fun d =>
      cands.map fun c => d ++ "/" ++ c
    match pairs.find? (fun p => pathIsFile e p) with
    | some p => .ok p
    | none =>
      match cands.findSome? e.which with
      | some p => .ok p
      | none => .error ⟨500, notFoundDetail envVar cands⟩
  match e.vars envVar with
  | none => fallback
  | some ov =>
    if ov = "" then fallback
    else if pathIsFile e ov then .ok ov
    else .error ⟨500, overrideDetail envVar ov⟩

/-- The exit-status contract of `_run_cli` (the `check=True` /
`CalledProcessError` handler): non-zero exit becomes an HTTP 500 whose
detail is the trimmed stderr, or a synthesized message when that is
empty.  The `FileNotFoundError` branch of the source (marked
`pragma: no cover`) concerns a binary vanishing between resolution and
spawn and is outside this embedding. -/
def runCli (command : List String) (r : ProcessResult) :
    Except HTTPError ProcessResult :=
  if r.returncode = 0 then .ok r
  else
    let stderrT := pyStrip r.stderr
    let detail :=
      if stderrT = "" then
        "Command '" ++ String.intercalate " " command ++
          "' failed with exit code " ++ toString r.returncode
      else stderrT
    .error ⟨500, detail⟩

/-- `Path.name`: the final path component (the modelled paths carry no
trailing slash). -/
def lastComponent (p : String) : String :=
  ⟨(p.data.reverse.takeWhile (fun c => c ≠ '/')).reverse⟩

/-- Substring containment on char lists (Python `pat in s`). -/
def listContainsSub : List Char → List Char → Bool
  | l, pat =>
    pat.isPrefixOf l ||
      match l with
      | [] => false
      | _ :: t => listContainsSub t pat

/-- Substring containment on strings (Python `pat in s`). -/
def strContainsSub (s pat : String) : Bool :=
  listContainsSub s.data pat.data

/-- `_build_encode_command(text, output_path)`: dispatch on the resolved
encoder's lowercased file name.  `ggwave-to-file` takes the text and the
output path positionally with no stdin; `ggwave-cli` takes `--output`
plus the path and the text on stdin; anything else is a 500. -/
def buildEncodeCommand (encoderPath : String) (text : String)
    (outputPath : String) : Except HTTPError (List String × Option String) :=
  if text = "" then
    .error ⟨400, "Text to encode must not be empty."⟩
  else
    let executable := strLower (lastComponent encoderPath)
    if strContainsSub executable "ggwave-to-file" then
      .ok ([encoderPath, text, outputPath], none)
    else if strContainsSub executable "ggwave-cli" then
      .ok ([encoderPath, "--output", outputPath], some text)
    else
      .error ⟨500, "Unsupported encoder binary '" ++ encoderPath ++ "'."⟩

/-! ## The `/encode` and `/decode` handlers

The handlers are modelled as state-passing functions over a file store
(the set of temporary files on disk, with their contents).  Each returns
the HTTP outcome, the final file store, and a flag recording whether a
subprocess was invoked. -/

/-- The on-disk temporary files: association list of path and content. -/
def FileStore := List (String × String)

/-- Create or overwrite a file. -/
def storeSet (fs : FileStore) (p c : String) : FileStore :=
  (p, c) :: List.filter (fun e => e.1 ≠ p) fs

/-- `Path.unlink` (a missing file is ignored by `_remove_file`). -/
def storeRemove (fs : FileStore) (p : String) : FileStore :=
  List.filter (fun e => e.1 ≠ p) fs

/-- Read a file's content. -/
def storeGet (fs : FileStore) (p : String) : Option String :=
  (List.find? (fun e => e.1 = p) fs).map (fun e => e.2)

/-- Whether a path exists in the store. -/
def storeExists (fs : FileStore) (p : String) : Bool :=
  (List.find? (fun e => e.1 = p) fs).isSome

/-- The `StreamingResponse` produced by `/encode`. -/
structure EncResponse where
  body : String
  mediaType : String
  contentDisposition : String
deriving DecidableEq

/-- The OS- and subprocess-facing context of one `/encode` request:
the fresh temporary-file name handed out by `tempfile`, the resolved
encoder path, and the subprocess oracle.  `runEnc cmd stdin` yields the
process result together with the bytes the child left in the output
file. -/
structure EncWorld where
  tmpName : String
  encoderPath : String
  runEnc : List String → Option String → ProcessResult × String

/-- Outcome of one handler run: HTTP result, final file store, and
whether a subprocess was invoked. -/
structure Outcome (α : Type) where
  result : Except HTTPError α
  fs : FileStore
  ranSubprocess : Bool

/-- The `/encode` handler.  Mirrors the source line by line: trim and
validate, create the temporary file (`delete=False`, so it exists empty
after the `with` block), build the command, run the CLI, then stream the
output file; the `finally` block unlinks the temporary file on every
path out of the `try`.  (On the success path the source unlinks before
the response body is streamed; the open descriptor keeps the bytes
readable on POSIX, so the response body is still the file content, but
the file is gone from disk.) -/
def encodeH (w : EncWorld) (fs0 : FileStore) (text0 : String) :
    Outcome EncResponse :=
  let text := pyStrip text0
  if text = "" then
    ⟨.error ⟨400, "Text to encode must not be empty."⟩, fs0, false⟩
  else
    let tmp := w.tmpName
    let fs1 := storeSet fs0 tmp ""
    match buildEncodeCommand w.encoderPath text tmp with
    | .error e => ⟨.error e, storeRemove fs1 tmp, false⟩
    | .ok (command, inputData) =>
      let (pr, written) := w.runEnc command inputData
      let fs2 := storeSet fs1 tmp written
      match runCli command pr with
      | .error e => ⟨.error e, storeRemove fs2 tmp, true⟩
      | .ok _ =>
        let body := (storeGet fs2 tmp).getD ""
        ⟨.ok ⟨body, "audio/wav", "attachment; filename=\"payload.wav\""⟩,
          storeRemove fs2 tmp, true⟩

/-! ## `DECODE_PATTERN` and its search semantics

`DECODE_PATTERN = re.compile(r"\[\+] Decoded message with length \d+: '(.+?)'")`
executed with `re.search`: the match starts at the leftmost position
where the whole pattern succeeds; `\d+` is a maximal nonempty digit run
(backtracking is moot since `:` is not a digit); the lazy group `(.+?)`
captures the shortest nonempty run of non-newline characters followed
by a closing quote. -/

/-- `\d` restricted to ASCII; the decoder's log line is ASCII. -/
def isDigitChar (c : Char) : Bool := '0' ≤ c && c ≤ '9'

/-- The literal prefix of `DECODE_PATTERN` before `\d+`. -/
def decodeMarker : List Char := "[+] Decoded message with length ".data

/-- Strip an expected literal prefix. -/
def dropPref : List Char → List Char → Option (List Char)
  | [], l => some l
  | _ :: _, [] => none
  | p :: ps, c :: l => if c = p then dropPref ps l else none

/-- Maximal digit run at the front. -/
def spanDigits : List Char → List Char × List Char
  | [] => ([], [])
  | c :: t =>
    if isDigitChar c then
      let (d, r) := spanDigits t
      (c :: d, r)
    else ([], c :: t)

/-- The lazy group `(.+?)'`: consume one non-newline character, then
scan up to the first closing quote, failing on a newline or the end of
input. -/
def lazyCapture (l : List Char) : Option (List Char) :=
  match l with
  | [] => none
  | c :: rest => if c = '\n' then none else go [c] rest
where
  go (acc : List Char) : List Char → Option (List Char)
    | [] => none
    | c :: rest =>
      if c = '\'' then some acc.reverse
      else if c = '\n' then none
      else go (c :: acc) rest

/-- Attempt the whole pattern at this position; returns the capture. -/
def matchAt (l : List Char) : Option (List Char) :=
  match dropPref decodeMarker l with
  | none => none
  | some rest =>
    let (ds, rest2) := spanDigits rest
    if ds.isEmpty then none
    else
      match dropPref [':', ' ', '\''] rest2 with
      | none => none
      | some rest3 => lazyCapture rest3

/-- `re.search`: try every start position left to right. -/
def searchDecode : List Char → Option (List Char)
  | [] => none
  | c :: t =>
    match matchAt (c :: t) with
    | some g => some g
    | none => searchDecode t

/-- `DECODE_PATTERN.search(s)` returning `group(1)`. -/
def decodePatternSearch (s : String) : Option String :=
  (searchDecode s.data).map List.asString

/-- The context of one `/decode` request: the fresh temporary-file name,
the resolved decoder path, and the subprocess oracle for
`[decoder_path, tmp_path]`. -/
structure DecWorld where
  tmpName : String
  decoderPath : String
  runDec : List String → ProcessResult

/-- The `/decode` handler: validate the uploaded bytes, write them to a
fresh temporary file, run the decoder with the file as sole argument
(the `finally` block unlinks the file on both paths), then parse stdout
with `DECODE_PATTERN`; no match is a 400. -/
def decodeH (w : DecWorld) (fs0 : FileStore) (contents : String) :
    Outcome String :=
  if contents = "" then
    ⟨.error ⟨400, "Uploaded WAV file was empty."⟩, fs0, false⟩
  else
    let tmp := w.tmpName
    let fs1 := storeSet fs0 tmp contents
    let command := [w.decoderPath, tmp]
    let pr := w.runDec command
    let fs2 := storeRemove fs1 tmp
    match runCli command pr with
    | .error e => ⟨.error e, fs2, true⟩
    | .ok r =>
      match decodePatternSearch r.stdout with
      | none =>
        ⟨.error ⟨400, "Could not decode a message from the provided audio."⟩,
          fs2, true⟩
      | some message => ⟨.ok message, fs2, true⟩

/-! ## Application-level composition -/

/-- The module-level resolution performed at import time
(`encoder_path = ...` then `decoder_path = ...`). -/
def appStartup (e : Env) : Except HTTPError (String × String) :=
  match ensureCliFound e GGWAVE_ENCODE_ENV ["ggwave-to-file", "ggwave-cli"] with
  | .error er => .error er
  | .ok enc =>
    match ensureCliFound e GGWAVE_DECODE_ENV ["ggwave-from-file"] with
    | .error er => .error er
    | .ok dec => .ok (enc, dec)

/-- One `/encode` invocation of the application: binary resolution
composed with the handler.  (The source resolves once at import; the
HTTPException raised there is the one surfaced, so the composition is
per-request in the embedding.) -/
def appEncode (e : Env)
    (runEnc : List String → Option String → ProcessResult × String)
    (tmpName : String) (fs0 : FileStore) (text : String) :
    Except HTTPError EncResponse :=
  match appStartup e with
  | .error er => .error er
  | .ok (enc, _) => (encodeH ⟨tmpName, enc, runEnc⟩ fs0 text).result

/-- The decoder log line for a successfully decoded message, as printed
by `ggwave-from-file`; the lossless-codec assumption of the round-trip
property is phrased with it. -/
def losslessLine (u : String) : String :=
  "[+] Decoded message with length " ++ Nat.repr u.length ++ ": '" ++ u ++ "'"

/-- `POST /encode` followed by `POST /decode` on the returned WAV body.
`wavOf` is the encoder binary's text-to-WAV function (the oracle writes
`wavOf` of the text argument of the command and succeeds), `decOut` is
the decoder binary's stdout on given WAV bytes. -/
def encodeThenDecode (wavOf decOut : String → String) (text : String) :
    Except HTTPError String :=
  let encW : EncWorld :=
    ⟨"/tmp/enc.wav", "/opt/ggwave-to-file",
      fun cmd _ => (⟨0, "", ""⟩, wavOf (cmd.getD 1 ""))⟩
  match (encodeH encW [] text).result with
  | .error e => .error e
  | .ok resp =>
    let decW : DecWorld :=
      ⟨"/tmp/dec.wav", "/opt/ggwave-from-file",
        fun _ => ⟨0, decOut resp.body, ""⟩⟩
    (decodeH decW [] resp.body).result

/-! ## Auxiliary definitions for the verification -/

/-- The suffix part of `String.intercalate`: `sep ++ a` for each
remaining element. -/
def tailJoin (sep : String) : List String → String
  | [] => ""
  | a :: as => sep ++ a ++ tailJoin sep as

/-- A concrete injective text-to-WAV encoder used in counterexamples. -/
def wavOfCE : String → String := fun u => "WAV:" ++ u

/-- The matching decoder-stdout oracle: lossless for every input of
`wavOfCE` (it prints the standard decode line for the carried text). -/
def decOutCE : String → String :=
  fun w => losslessLine (List.asString (w.data.drop 4))

/-- Environment with the encoder override set to a nonexistent path. -/
def envBadOverride : Env :=
  ⟨fun v => if v = "GGWAVE_ENCODE" then some "/nope/ggwave" else none,
    fun _ => false, fun _ => none, "posix", "/cwd", "/proj"⟩

/-- Environment with no override and one binary present in a well-known
directory. -/
def envDirHit : Env :=
  ⟨fun _ => none, fun p => p = "/r/bin/ggwave-to-file", fun _ => none,
    "posix", "/cwd", "/r"⟩

/-- Environment with a relative override that exists under the project
root but not under the working directory. -/
def envRelOverride : Env :=
  ⟨fun v => if v = "GGWAVE_ENCODE" then some "rel/bin" else none,
    fun p => p = "/proj/rel/bin", fun _ => none, "posix", "/cwd", "/proj"⟩

/-- Encode world whose subprocess succeeds and writes a fixed payload. -/
def wEnc0 : EncWorld :=
  ⟨"/tmp/e.wav", "/opt/ggwave-to-file", fun _ _ => (⟨0, "", ""⟩, "RIFF")⟩

/-- Decode world whose subprocess succeeds with empty stdout. -/
def wDec0 : DecWorld :=
  ⟨"/tmp/d.wav", "/opt/ggwave-from-file", fun _ => ⟨0, "", ""⟩⟩

/-- Encode world whose subprocess exits 0 but writes nothing to the
output file. -/
def wEncEmpty : EncWorld :=
  ⟨"/tmp/t.wav", "/opt/ggwave-to-file", fun _ _ => (⟨0, "", ""⟩, "")⟩

/-! ## Helper lemmas -/

theorem isPrefixOf_append_self (p l : List Char) :
    p.isPrefixOf (p ++ l) = true := by
  induction p with
  | nil => simp [List.isPrefixOf]
  | cons c t ih => simp [List.isPrefixOf, ih]

theorem listContainsSub_append (a p b : List Char) :
    listContainsSub (a ++ (p ++ b)) p = true := by
  induction a with
  | nil =>
    rw [listContainsSub.eq_def]
    simp [isPrefixOf_append_self]
  | cons c t ih =>
    rw [listContainsSub.eq_def]
    simp only [List.cons_append]
    simp [ih]

theorem strContainsSub_append (a p b : String) :
    strContainsSub (a ++ p ++ b) p = true := by
  have h : (a ++ p ++ b).data = a.data ++ (p.data ++ b.data) := by
    simp [String.data_append, List.append_assoc]
  rw [strContainsSub, h]
  exact listContainsSub_append _ _ _

theorem string_append_empty (s : String) : s ++ "" = s := by
  cases s with
  | mk data =>
    show String.mk (data ++ []) = String.mk data
    simp

theorem string_empty_append (s : String) : "" ++ s = s := rfl

theorem intercalate_go_spec (sep : String) (l : List String) :
    ∀ acc, String.intercalate.go acc sep l = acc ++ tailJoin sep l := by
  induction l with
  | nil =>
    intro acc
    simp [String.intercalate.go, tailJoin, string_append_empty]
  | cons a as ih =>
    intro acc
    rw [String.intercalate.go, ih, tailJoin]
    simp [String.append_assoc]

theorem intercalate_eq (sep : String) (a : String) (as : List String) :
    String.intercalate sep (a :: as) = a ++ tailJoin sep as := by
  rw [String.intercalate, intercalate_go_spec]

theorem tailJoin_mem (sep c : String) (l : List String) (h : c ∈ l) :
    ∃ x y, tailJoin sep l = x ++ c ++ y := by
  induction l with
  | nil => cases h
  | cons a as ih =>
    rcases List.mem_cons.mp h with h1 | h2
    · subst h1
      exact ⟨sep, tailJoin sep as, by simp [tailJoin, String.append_assoc]⟩
    · obtain ⟨x, y, hxy⟩ := ih h2
      refine ⟨sep ++ a ++ x, y, ?_⟩
      simp [tailJoin, hxy, String.append_assoc]

theorem intercalate_mem (sep c : String) (l : List String) (h : c ∈ l) :
    ∃ x y, String.intercalate sep l = x ++ c ++ y := by
  cases l with
  | nil => cases h
  | cons a as =>
    rcases List.mem_cons.mp h with h1 | h2
    · subst h1
      exact ⟨"", tailJoin sep as, by
        rw [intercalate_eq, string_empty_append]⟩
    · obtain ⟨x, y, hxy⟩ := tailJoin_mem sep c as h2
      refine ⟨a ++ x, y, ?_⟩
      rw [intercalate_eq, hxy]
      simp [String.append_assoc]

theorem storeGet_set (fs : FileStore) (p c : String) :
    storeGet (storeSet fs p c) p = some c := by
  simp [storeGet, storeSet, List.find?_cons_of_pos]

theorem storeExists_remove (fs : FileStore) (p : String) :
    storeExists (storeRemove fs p) p = false := by
  rw [storeExists, storeRemove]
  have h : List.find? (fun e => decide (e.1 = p))
      (List.filter (fun e => decide (e.1 ≠ p)) fs) = none := by
    rw [List.find?_eq_none]
    intro e he
    have := List.of_mem_filter he
    simpa using this
  rw [h]
  rfl

theorem dedupFirst_go_flatMap_find (f : String → List String)
    (q : String → Bool) :
    ∀ (l seen : List String),
      (∀ x ∈ seen, (f x).find? q = none) →
      ((dedupFirst.go seen l).flatMap f).find? q = (l.flatMap f).find? q := by
  intro l
  induction l with
  | nil => intro seen _; rfl
  | cons c t ih =>
    intro seen hseen
    rw [dedupFirst.go]
    by_cases hc : seen.contains c = true
    · rw [if_pos hc]
      have hmem : c ∈ seen := by
        rw [List.contains_iff_exists_mem_beq] at hc
        obtain ⟨x, hx, hbeq⟩ := hc
        have hcx : c = x := eq_of_beq hbeq
        rw [hcx]
        exact hx
      rw [ih seen hseen, List.flatMap_cons, List.find?_append,
        hseen c hmem]
      rfl
    · rw [if_neg hc]
      rw [List.flatMap_cons, List.flatMap_cons, List.find?_append,
        List.find?_append]
      cases hfc : (f c).find? q with
      | some v => rfl
      | none =>
        have hseen2 : ∀ x ∈ c :: seen, (f x).find? q = none := by
          intro x hx
          rcases List.mem_cons.mp hx with h1 | h2
          · rw [h1]; exact hfc
          · exact hseen x h2
        rw [ih (c :: seen) hseen2]

theorem iterDefaultCliDirs_flatMap_find (root : String)
    (f : String → List String) (q : String → Bool) :
    ((iterDefaultCliDirs root).flatMap f).find? q =
      ((rawCliDirs root).flatMap f).find? q := by
  rw [iterDefaultCliDirs, dedupFirst]
  exact dedupFirst_go_flatMap_find f q (rawCliDirs root) [] (by intro x hx; cases hx)

theorem listLtChar_append_self (l m : List Char) :
    listLtChar (l ++ m) l = false := by
  induction l with
  | nil => cases m <;> rfl
  | cons a t ih => simp [listLtChar, ih]

theorem sortedPair_exe (n : String) :
    sortedPair n (n ++ ".exe") = [n, n ++ ".exe"] := by
  rw [sortedPair]
  rw [show (n ++ ".exe").data = n.data ++ ".exe".data from
    String.data_append n ".exe"]
  rw [listLtChar_append_self]
  rfl

theorem digitChar_isDigit : ∀ m : Nat, m < 10 →
    isDigitChar (Nat.digitChar m) = true := by decide

theorem toDigitsCore_digits (fuel : Nat) :
    ∀ (n : Nat) (acc : List Char),
      (∀ c ∈ acc, isDigitChar c = true) →
      ∀ c ∈ Nat.toDigitsCore 10 fuel n acc, isDigitChar c = true := by
  induction fuel with
  | zero =>
    intro n acc hacc
    simpa [Nat.toDigitsCore] using hacc
  | succ fuel ih =>
    intro n acc hacc
    rw [Nat.toDigitsCore]
    have hd : isDigitChar (Nat.digitChar (n % 10)) = true :=
      digitChar_isDigit _ (Nat.mod_lt _ (by norm_num))
    have hacc2 : ∀ c ∈ Nat.digitChar (n % 10) :: acc,
        isDigitChar c = true := by
      intro c hc
      rcases List.mem_cons.mp hc with h1 | h2
      · rw [h1]; exact hd
      · exact hacc c h2
    by_cases hz : n / 10 = 0
    · simpa [hz] using hacc2
    · simpa [hz] using ih (n / 10) _ hacc2

theorem toDigitsCore_ne_nil (b fuel : Nat) :
    ∀ (n : Nat) (acc : List Char), acc ≠ [] →
      Nat.toDigitsCore b fuel n acc ≠ [] := by
  induction fuel with
  | zero => intro n acc h; simpa [Nat.toDigitsCore] using h
  | succ fuel ih =>
    intro n acc h
    rw [Nat.toDigitsCore]
    by_cases hz : n / b = 0
    · simp [hz]
    · simpa [hz] using ih (n / b) _ (by simp)

theorem repr_data_digits (n : Nat) :
    ∀ c ∈ (Nat.repr n).data, isDigitChar c = true := by
  have h : (Nat.repr n).data = Nat.toDigitsCore 10 (n + 1) n [] := rfl
  rw [h]
  exact toDigitsCore_digits (n + 1) n [] (by intro c hc; cases hc)

theorem repr_data_ne_nil (n : Nat) : (Nat.repr n).data ≠ [] := by
  have h : (Nat.repr n).data = Nat.toDigitsCore 10 (n + 1) n [] := rfl
  rw [h, Nat.toDigitsCore]
  by_cases hz : n / 10 = 0
  · simp [hz]
  · simpa [hz] using toDigitsCore_ne_nil 10 n (n / 10) _ (by simp)

theorem dropPref_append (p l : List Char) :
    dropPref p (p ++ l) = some l := by
  induction p with
  | nil => rfl
  | cons c t ih => simp [dropPref, ih]

theorem spanDigits_digits_colon (d r : List Char)
    (hd : ∀ c ∈ d, isDigitChar c = true) :
    spanDigits (d ++ ':' :: r) = (d, ':' :: r) := by
  induction d with
  | nil => rfl
  | cons c t ih =>
    have hc : isDigitChar c = true := hd c (List.mem_cons_self _ _)
    have ht : ∀ x ∈ t, isDigitChar x = true := by
      intro x hx; exact hd x (List.mem_cons_of_mem _ hx)
    simp [spanDigits, hc, ih ht]

theorem lazyCapture_go_closed (t : List Char)
    (hq : ∀ c ∈ t, c ≠ '\'') (hn : ∀ c ∈ t, c ≠ '\n') :
    ∀ acc, lazyCapture.go acc (t ++ ['\'']) = some (acc.reverse ++ t) := by
  induction t with
  | nil => intro acc; simp [lazyCapture.go]
  | cons c t ih =>
    intro acc
    have hc1 : c ≠ '\'' := hq c (List.mem_cons_self _ _)
    have hc2 : c ≠ '\n' := hn c (List.mem_cons_self _ _)
    have ht1 : ∀ x ∈ t, x ≠ '\'' := by
      intro x hx; exact hq x (List.mem_cons_of_mem _ hx)
    have ht2 : ∀ x ∈ t, x ≠ '\n' := by
      intro x hx; exact hn x (List.mem_cons_of_mem _ hx)
    simp only [List.cons_append, lazyCapture.go, if_neg hc1, if_neg hc2]
    rw [List.append_eq, ih ht1 ht2]
    simp

theorem lazyCapture_closed (u : List Char) (hne : u ≠ [])
    (hq : ∀ c ∈ u, c ≠ '\'') (hn : ∀ c ∈ u, c ≠ '\n') :
    lazyCapture (u ++ ['\'']) = some u := by
  cases u with
  | nil => cases hne rfl
  | cons c t =>
    have hc2 : c ≠ '\n' := hn c (List.mem_cons_self _ _)
    have ht1 : ∀ x ∈ t, x ≠ '\'' := by
      intro x hx; exact hq x (List.mem_cons_of_mem _ hx)
    have ht2 : ∀ x ∈ t, x ≠ '\n' := by
      intro x hx; exact hn x (List.mem_cons_of_mem _ hx)
    simp only [List.cons_append, lazyCapture, if_neg hc2]
    rw [lazyCapture_go_closed t ht1 ht2 [c]]
    simp

theorem losslessLine_data (u : String) :
    (losslessLine u).data =
      decodeMarker ++ ((Nat.repr u.length).data ++
        (':' :: ' ' :: '\'' :: (u.data ++ ['\'']))) := by
  show ("[+] Decoded message with length " ++ Nat.repr u.length ++
      ": '" ++ u ++ "'").data = _
  simp only [String.data_append, List.append_assoc]
  rfl

theorem matchAt_lossless (u : String) (hne : u.data ≠ [])
    (hq : ∀ c ∈ u.data, c ≠ '\'') (hn : ∀ c ∈ u.data, c ≠ '\n') :
    matchAt (losslessLine u).data = some u.data := by
  rw [matchAt, losslessLine_data, dropPref_append]
  have hspan : spanDigits ((Nat.repr u.length).data ++
      (':' :: ' ' :: '\'' :: (u.data ++ ['\'']))) =
      ((Nat.repr u.length).data,
        ':' :: ' ' :: '\'' :: (u.data ++ ['\''])) := by
    exact spanDigits_digits_colon _ _ (repr_data_digits u.length)
  have hds : ((Nat.repr u.length).data).isEmpty = false := by
    cases h : (Nat.repr u.length).data with
    | nil => exact absurd h (repr_data_ne_nil u.length)
    | cons a t => rfl
  have hdrop : dropPref [':', ' ', '\'']
      (':' :: ' ' :: '\'' :: (u.data ++ ['\''])) =
      some (u.data ++ ['\'']) := by
    simp [dropPref]
  simp only [hspan, hds, Bool.false_eq_true, if_false, hdrop]
  exact lazyCapture_closed u.data hne hq hn

theorem searchDecode_cons_of_match (c : Char) (t : List Char)
    (g : List Char) (h : matchAt (c :: t) = some g) :
    searchDecode (c :: t) = some g := by
  rw [searchDecode, h]

theorem data_ne_nil_of_ne_empty (u : String) (h : u ≠ "") :
    u.data ≠ [] := by
  intro hd
  apply h
  cases u with
  | mk d => cases hd; rfl

theorem decode_lossless (u : String) (hne : u ≠ "")
    (hq : ∀ c ∈ u.data, c ≠ '\'') (hn : ∀ c ∈ u.data, c ≠ '\n') :
    decodePatternSearch (losslessLine u) = some u := by
  have hmarker : decodeMarker =
      '[' :: "+] Decoded message with length ".data := rfl
  have hcons : (losslessLine u).data =
      '[' :: ("+] Decoded message with length ".data ++
        ((Nat.repr u.length).data ++
          (':' :: ' ' :: '\'' :: (u.data ++ ['\''])))) := by
    rw [losslessLine_data, hmarker]
    rfl
  have hmatch : matchAt (losslessLine u).data = some u.data :=
    matchAt_lossless u (data_ne_nil_of_ne_empty u hne) hq hn
  rw [decodePatternSearch, hcons]
  rw [hcons] at hmatch
  rw [searchDecode_cons_of_match _ _ _ hmatch]
  rfl

theorem buildEncodeCommand_toFile (enc text out : String)
    (htext : text ≠ "")
    (hname : strContainsSub (strLower (lastComponent enc))
      "ggwave-to-file" = true) :
    buildEncodeCommand enc text out = .ok ([enc, text, out], none) := by
  rw [buildEncodeCommand, if_neg htext]
  simp only [hname]
  rfl

theorem encodeH_result (w : EncWorld) (fs0 : FileStore) (text0 : String)
    (htext : pyStrip text0 ≠ "")
    (hname : strContainsSub (strLower (lastComponent w.encoderPath))
      "ggwave-to-file" = true)
    (pr : ProcessResult) (written : String)
    (hrun : w.runEnc [w.encoderPath, pyStrip text0, w.tmpName] none =
      (pr, written))
    (hexit : pr.returncode = 0) :
    (encodeH w fs0 text0).result =
      .ok ⟨written, "audio/wav", "attachment; filename=\"payload.wav\""⟩ := by
  rw [encodeH]
  simp only [if_neg htext]
  rw [buildEncodeCommand_toFile _ _ _ htext hname]
  simp only [hrun]
  rw [runCli, if_pos hexit]
  simp only [storeGet_set]
  rfl

theorem decodeH_result (w : DecWorld) (fs0 : FileStore) (contents : String)
    (hc : contents ≠ "")
    (pr : ProcessResult)
    (hrun : w.runDec [w.decoderPath, w.tmpName] = pr)
    (hexit : pr.returncode = 0) :
    (decodeH w fs0 contents).result =
      (match decodePatternSearch pr.stdout with
       | none =>
         .error ⟨400, "Could not decode a message from the provided audio."⟩
       | some message => .ok message) := by
  rw [decodeH]
  simp only [if_neg hc, hrun]
  rw [runCli, if_pos hexit]
  cases hs : decodePatternSearch pr.stdout with
  | none => simp [hs]
  | some m => simp [hs]

theorem overrideDetail_contains_env (envVar ov : String) :
    strContainsSub (overrideDetail envVar ov) envVar = true := by
  have h : overrideDetail envVar ov =
      "The environment variable " ++ envVar ++
        (" points to '" ++ ov ++ "', but the executable could not be found.") := by
    rw [overrideDetail]
    simp [String.append_assoc]
  rw [h]
  exact strContainsSub_append _ _ _

theorem overrideDetail_contains_path (envVar ov : String) :
    strContainsSub (overrideDetail envVar ov) ov = true := by
  rw [overrideDetail]
  exact strContainsSub_append _ _ _

/-! ## Claims -/

/-- C2: if the `GGWAVE_ENCODE` override is set to a value that is not an
existing regular file, every `/encode` invocation of the application
fails with an HTTP 500 whose detail names both the environment variable
and the offending path.  (In the source the resolution runs once at
module import; the embedding composes it with the handler per
invocation, so the conclusion quantifies over all requests.) -/
theorem claim_C2_override_invalid_encode_500 (e : Env) (p : String)
    (hv : e.vars GGWAVE_ENCODE_ENV = some p) (hp : p ≠ "")
    (hf : pathIsFile e p = false) :
    (∀ (runEnc : List String → Option String → ProcessResult × String)
       (tmpName : String) (fs0 : FileStore) (text : String),
      appEncode e runEnc tmpName fs0 text =
        .error ⟨500, overrideDetail GGWAVE_ENCODE_ENV p⟩) ∧
    strContainsSub (overrideDetail GGWAVE_ENCODE_ENV p)
      GGWAVE_ENCODE_ENV = true ∧
    strContainsSub (overrideDetail GGWAVE_ENCODE_ENV p) p = true := by
  refine ⟨?_, overrideDetail_contains_env _ _, overrideDetail_contains_path _ _⟩
  intro runEnc tmpName fs0 text
  rw [appEncode, appStartup]
  simp only [ensureCliFound, hv, if_neg hp, hf]
  rfl

/-- Witness for C2 at a concrete environment whose override points to a
nonexistent path. -/
theorem claim_C2_witness :
    appEncode envBadOverride (fun _ _ => (⟨0, "", ""⟩, "RIFF")) "/tmp/t.wav"
      [] "hi" =
      .error ⟨500, overrideDetail GGWAVE_ENCODE_ENV "/nope/ggwave"⟩ :=
  (claim_C2_override_invalid_encode_500 envBadOverride "/nope/ggwave"
    (by decide) (by decide) (by decide)).1 _ _ _ _

/-- C3 counterexample: with an encoder subprocess that exits 0 and
writes nothing, the `/encode` handler returns the empty payload with a
success response; it does not fail with "encoder produced no audio
output" (no such check exists in the code). -/
theorem claim_C3_counterexample :
    (encodeH wEncEmpty [] "hi").result =
      .ok ⟨"", "audio/wav", "attachment; filename=\"payload.wav\""⟩ ∧
    (encodeH wEncEmpty [] "hi").result ≠
      .error ⟨500, "encoder produced no audio output"⟩ := by
  constructor
  · decide
  · decide

/-- C3 (amended): if the encoder invocation exits 0 having produced an
empty output payload, the encode handler returns the empty payload with
a success response; the code performs no empty-output check. -/
theorem claim_C3_empty_output_streamed (tmp enc : String) (fs0 : FileStore)
    (text so se : String)
    (htext : pyStrip text ≠ "")
    (hname : strContainsSub (strLower (lastComponent enc))
      "ggwave-to-file" = true) :
    (encodeH ⟨tmp, enc, fun _ _ => (⟨0, so, se⟩, "")⟩ fs0 text).result =
      .ok ⟨"", "audio/wav", "attachment; filename=\"payload.wav\""⟩ :=
  encodeH_result _ fs0 text htext hname ⟨0, so, se⟩ "" rfl rfl

/-- Witness for the amended C3. -/
theorem claim_C3_witness :
    (encodeH ⟨"/tmp/x.wav", "/opt/ggwave-to-file",
        fun _ _ => (⟨0, "log", "warn"⟩, "")⟩ [] "hello").result =
      .ok ⟨"", "audio/wav", "attachment; filename=\"payload.wav\""⟩ :=
  claim_C3_empty_output_streamed "/tmp/x.wav" "/opt/ggwave-to-file" []
    "hello" "log" "warn" (by decide) (by decide)

/-- C5 counterexample: the override `rel/bin` is relative, the file
exists at the project-root-resolved location `/proj/rel/bin`, yet
resolution fails with a 500 — the code checked the path against the
working directory, not the project root. -/
theorem claim_C5_counterexample :
    envRelOverride.vars GGWAVE_ENCODE_ENV = some "rel/bin" ∧
    isAbsPath "rel/bin" = false ∧
    envRelOverride.isFile
      (envRelOverride.projectRoot ++ "/" ++ "rel/bin") = true ∧
    ensureCliFound envRelOverride GGWAVE_ENCODE_ENV
        ["ggwave-to-file", "ggwave-cli"] =
      .error ⟨500, overrideDetail GGWAVE_ENCODE_ENV "rel/bin"⟩ := by
  refine ⟨by decide, by decide, by decide, by decide⟩

/-- C5 (amended): a non-absolute override path is resolved relative to
the process working directory (not the project root) before the
regular-file check. -/
theorem claim_C5_relative_override_cwd (e : Env) (envVar p : String)
    (names : List String)
    (hv : e.vars envVar = some p) (hp : p ≠ "")
    (habs : isAbsPath p = false) :
    ensureCliFound e envVar names =
      (if e.isFile (e.cwd ++ "/" ++ p) then .ok p
       else .error ⟨500, overrideDetail envVar p⟩) := by
  simp only [ensureCliFound, hv, if_neg hp, pathIsFile, habs]
  rfl

/-- Witness for the amended C5. -/
theorem claim_C5_witness :
    ensureCliFound envRelOverride GGWAVE_ENCODE_ENV ["ggwave-to-file"] =
      .error ⟨500, overrideDetail GGWAVE_ENCODE_ENV "rel/bin"⟩ := by
  have h := claim_C5_relative_override_cwd envRelOverride GGWAVE_ENCODE_ENV
    "rel/bin" ["ggwave-to-file"] (by decide) (by decide) (by decide)
  rw [h]
  decide

/-- C6: the decode handler parses decoder stdout with the fixed pattern
(marker token `[+]`, the literal text, a numeric length, a colon, the
message in single quotes); the first match wins and the capture excludes
the quotes; in particular the full decode line embedded among other log
lines yields exactly `hello`, and stdout lacking the marker, the length,
the colon or the quotes does not match. -/
theorem claim_C6_decode_pattern :
    (decodeH ⟨"/tmp/d.wav", "/opt/ggwave-from-file", fun _ =>
        ⟨0, "init audio\n[+] Decoded message with length 5: 'hello'\ncleanup",
          ""⟩⟩ [] "RIFFdata").result = .ok "hello" ∧
    decodePatternSearch
      "[+] Decoded message with length 3: 'abc'\n[+] Decoded message with length 2: 'de'" =
      some "abc" ∧
    decodePatternSearch "Decoded message with length 5: 'hello'" = none ∧
    decodePatternSearch "[+] Decoded message with length : 'hello'" = none ∧
    decodePatternSearch "[+] Decoded message with length 5 'hello'" = none ∧
    decodePatternSearch "[+] Decoded message with length 5: hello" = none := by
  refine ⟨by decide, by decide, by decide, by decide, by decide, by decide⟩

/-- C9: empty input is rejected with HTTP 400 before any subprocess is
invoked: `/encode` whenever the text is empty after trimming
(so also for whitespace-only input), `/decode` whenever the uploaded
body is empty; the file store is untouched and no subprocess runs. -/
theorem claim_C9_empty_input_400 (wE : EncWorld) (fsE : FileStore)
    (text : String) (wD : DecWorld) (fsD : FileStore)
    (h : pyStrip text = "") :
    encodeH wE fsE text =
      ⟨.error ⟨400, "Text to encode must not be empty."⟩, fsE, false⟩ ∧
    decodeH wD fsD "" =
      ⟨.error ⟨400, "Uploaded WAV file was empty."⟩, fsD, false⟩ := by
  constructor
  · rw [encodeH]
    simp [h]
  · rw [decodeH]
    simp

/-- Witness for C9 with whitespace-only text and an empty upload. -/
theorem claim_C9_witness :
    encodeH wEnc0 [] "  " =
      ⟨.error ⟨400, "Text to encode must not be empty."⟩, [], false⟩ ∧
    decodeH wDec0 [] "" =
      ⟨.error ⟨400, "Uploaded WAV file was empty."⟩, [], false⟩ :=
  claim_C9_empty_input_400 wEnc0 [] "  " wDec0 [] (by decide)

/-- C10: the encode command is dispatched on the resolved encoder's
lowercased file name: a name containing `ggwave-to-file` gives
positional `[path, text, output]` with no stdin; otherwise a name
containing `ggwave-cli` gives `[path, --output, output]` with the text
on stdin; any other name fails with a 500 naming the unsupported
binary. -/
theorem claim_C10_encoder_dispatch (enc text out : String) (h : text ≠ "") :
    (strContainsSub (strLower (lastComponent enc)) "ggwave-to-file" = true →
      buildEncodeCommand enc text out = .ok ([enc, text, out], none)) ∧
    (strContainsSub (strLower (lastComponent enc)) "ggwave-to-file" = false →
      strContainsSub (strLower (lastComponent enc)) "ggwave-cli" = true →
      buildEncodeCommand enc text out =
        .ok ([enc, "--output", out], some text)) ∧
    (strContainsSub (strLower (lastComponent enc)) "ggwave-to-file" = false →
      strContainsSub (strLower (lastComponent enc)) "ggwave-cli" = false →
      buildEncodeCommand enc text out =
        .error ⟨500, "Unsupported encoder binary '" ++ enc ++ "'."⟩) := by
  refine ⟨fun h1 => buildEncodeCommand_toFile enc text out h h1,
    fun h1 h2 => ?_, fun h1 h2 => ?_⟩
  · rw [buildEncodeCommand, if_neg h]
    simp only [h1, h2]
    rfl
  · rw [buildEncodeCommand, if_neg h]
    simp only [h1, h2]
    rfl

/-- Witness for C10 on the three dispatch shapes. -/
theorem claim_C10_witness :
    buildEncodeCommand "/opt/ggwave-to-file" "hi" "/t.wav" =
      .ok (["/opt/ggwave-to-file", "hi", "/t.wav"], none) ∧
    buildEncodeCommand "/opt/GGwave-CLI" "hi" "/t.wav" =
      .ok (["/opt/GGwave-CLI", "--output", "/t.wav"], some "hi") ∧
    buildEncodeCommand "/opt/sox" "hi" "/t.wav" =
      .error ⟨500, "Unsupported encoder binary '/opt/sox'."⟩ := by
  refine ⟨(claim_C10_encoder_dispatch "/opt/ggwave-to-file" "hi" "/t.wav"
      (by decide)).1 (by decide),
    (claim_C10_encoder_dispatch "/opt/GGwave-CLI" "hi" "/t.wav"
      (by decide)).2.1 (by decide) (by decide),
    (claim_C10_encoder_dispatch "/opt/sox" "hi" "/t.wav"
      (by decide)).2.2 (by decide) (by decide)⟩

/-- C1 counterexample: with a codec that is lossless (the decoder
stdout is the standard decode line for the carried text, both for the
original text and for its trimmed form), encoding the non-empty text
`" a "` and decoding the result yields `"a"`, not the original text:
the encode handler trims before encoding. -/
theorem claim_C1_counterexample :
    decOutCE (wavOfCE " a ") = losslessLine " a " ∧
    decOutCE (wavOfCE "a") = losslessLine "a" ∧
    (" a " : String) ≠ "" ∧
    encodeThenDecode wavOfCE decOutCE " a " = .ok "a" ∧
    encodeThenDecode wavOfCE decOutCE " a " ≠ .ok " a " := by
  refine ⟨by decide, by decide, by decide, by decide, by decide⟩

/-- C1 (amended): for every text whose trimmed form is non-empty and
contains no single quote and no newline, `/encode` followed by
`/decode` on the produced WAV returns the trimmed text (hence the
original text whenever it carries no surrounding whitespace), assuming
the codec is lossless for the trimmed text and its WAV is non-empty. -/
theorem claim_C1_roundtrip_trimmed (wavOf decOut : String → String)
    (text : String)
    (h1 : pyStrip text ≠ "")
    (h2 : ∀ c ∈ (pyStrip text).data, c ≠ '\'' ∧ c ≠ '\n')
    (h3 : wavOf (pyStrip text) ≠ "")
    (h4 : decOut (wavOf (pyStrip text)) = losslessLine (pyStrip text)) :
    encodeThenDecode wavOf decOut text = .ok (pyStrip text) := by
  rw [encodeThenDecode]
  have henc := encodeH_result
    ⟨"/tmp/enc.wav", "/opt/ggwave-to-file",
      fun cmd _ => (⟨0, "", ""⟩, wavOf (cmd.getD 1 ""))⟩
    [] text h1
    (show strContainsSub (strLower (lastComponent "/opt/ggwave-to-file"))
        "ggwave-to-file" = true by decide)
    ⟨0, "", ""⟩ (wavOf (pyStrip text)) rfl rfl
  simp only [henc]
  have hdec := decodeH_result
    ⟨"/tmp/dec.wav", "/opt/ggwave-from-file",
      fun _ => ⟨0, decOut (wavOf (pyStrip text)), ""⟩⟩
    [] (wavOf (pyStrip text)) h3 ⟨0, decOut (wavOf (pyStrip text)), ""⟩
    rfl rfl
  rw [hdec]
  rw [h4, decode_lossless (pyStrip text) h1
    (fun c hc => (h2 c hc).1) (fun c hc => (h2 c hc).2)]

/-- Witness for the amended C1 at a concrete lossless codec and text. -/
theorem claim_C1_witness :
    encodeThenDecode wavOfCE decOutCE "hi" = .ok (pyStrip "hi") :=
  claim_C1_roundtrip_trimmed wavOfCE decOutCE "hi" (by decide) (by decide)
    (by decide) (by decide)

/-- C4: binary resolution order.  (1) With the override set (non-empty),
the result is decided by the override alone: the override path if it is
a regular file, else an error.  (2) Without an override, the first
existing regular file over the fixed ordered directory list crossed
with the candidate names (directory-major, `.exe` variants included on
Windows) wins; otherwise the first PATH-lookup hit wins; otherwise the
error enumerates every candidate name and names the override variable.
The conclusion is stated over the raw generation order of the
directories; the theorem shows the source's first-occurrence
deduplication does not change the first match. -/
theorem claim_C4_resolution_order (e : Env) (envVar : String)
    (names : List String) :
    (∀ ov, e.vars envVar = some ov → ov ≠ "" →
      ensureCliFound e envVar names =
        (if pathIsFile e ov then .ok ov
         else .error ⟨500, overrideDetail envVar ov⟩)) ∧
    (e.vars envVar = none ∨ e.vars envVar = some "" →
      ensureCliFound e envVar names =
        (match ((rawCliDirs e.projectRoot).flatMap fun d =>
            (candidateNames e.osName names).map fun c => d ++ "/" ++ c).find?
              (fun p => pathIsFile e p) with
         | some p => .ok p
         | none =>
           match (candidateNames e.osName names).findSome? e.which with
           | some p => .ok p
           | none =>
             .error ⟨500,
               notFoundDetail envVar (candidateNames e.osName names)⟩)) ∧
    (∀ c ∈ candidateNames e.osName names,
      strContainsSub
        (notFoundDetail envVar (candidateNames e.osName names)) c = true) ∧
    strContainsSub (notFoundDetail envVar (candidateNames e.osName names))
      envVar = true ∧
    (∀ n, strEndsWith (strLower n) ".exe" = false →
      possibleBinaryNames "nt" n = [n, n ++ ".exe"]) ∧
    (∀ osName n, osName ≠ "nt" → possibleBinaryNames osName n = [n]) := by
  refine ⟨?_, ?_, ?_, ?_, ?_, ?_⟩
  · intro ov hv hp
    simp only [ensureCliFound, hv, if_neg hp]
  · intro h
    have hfind := iterDefaultCliDirs_flatMap_find e.projectRoot
      (fun d => (candidateNames e.osName names).map fun c => d ++ "/" ++ c)
      (fun p => pathIsFile e p)
    rcases h with h | h
    · simp only [ensureCliFound, h]
      rw [hfind]
    · simp only [ensureCliFound, h, if_true]
      rw [hfind]
  · intro c hc
    obtain ⟨x, y, hxy⟩ := intercalate_mem ", " c
      (candidateNames e.osName names) hc
    have h : notFoundDetail envVar (candidateNames e.osName names) =
        ("Unable to locate a ggwave executable. Looked for: " ++ x) ++ c ++
          (y ++ (". Consider setting the " ++
            (envVar ++ " environment variable."))) := by
      rw [notFoundDetail, hxy]
      simp [String.append_assoc]
    rw [h]
    exact strContainsSub_append _ _ _
  · rw [notFoundDetail]
    exact strContainsSub_append _ _ _
  · intro n hn
    rw [possibleBinaryNames]
    simp [hn, sortedPair_exe n]
  · intro osName n hos
    rw [possibleBinaryNames]
    simp [hos]

/-- Witness for C4: no override, the encoder binary sits in the
`bin` subdirectory of the project root and is found there. -/
theorem claim_C4_witness :
    ensureCliFound envDirHit "GGWAVE_ENCODE"
      ["ggwave-to-file", "ggwave-cli"] = .ok "/r/bin/ggwave-to-file" := by
  have h := (claim_C4_resolution_order envDirHit "GGWAVE_ENCODE"
    ["ggwave-to-file", "ggwave-cli"]).2.1 (Or.inl rfl)
  rw [h]
  decide

/-- C7: a non-zero subprocess exit becomes an HTTP 500 whose detail is
the trimmed captured stderr, or — when the trimmed stderr is empty — a
synthesized message stating the joined command failed with that exit
code; the decode handler surfaces exactly that error to the caller. -/
theorem claim_C7_process_failed (command : List String) (r : ProcessResult)
    (h : r.returncode ≠ 0) :
    (pyStrip r.stderr ≠ "" →
      runCli command r = .error ⟨500, pyStrip r.stderr⟩) ∧
    (pyStrip r.stderr = "" →
      runCli command r = .error ⟨500,
        "Command '" ++ String.intercalate " " command ++
          "' failed with exit code " ++ toString r.returncode⟩) ∧
    (∀ (tmp dec : String) (fs0 : FileStore) (contents : String),
      contents ≠ "" →
      (decodeH ⟨tmp, dec, fun _ => r⟩ fs0 contents).result =
        .error ⟨500,
          if pyStrip r.stderr = "" then
            "Command '" ++ String.intercalate " " [dec, tmp] ++
              "' failed with exit code " ++ toString r.returncode
          else pyStrip r.stderr⟩) := by
  refine ⟨fun hs => ?_, fun hs => ?_, fun tmp dec fs0 contents hc => ?_⟩
  · rw [runCli, if_neg h]
    simp only [if_neg hs]
  · rw [runCli, if_neg h]
    simp only [if_pos hs]
  · rw [decodeH]
    simp only [if_neg hc]
    rw [runCli, if_neg h]

/-- Witness for C7: captured stderr wins when non-empty after trimming;
the synthesized message carries the joined command and exit code. -/
theorem claim_C7_witness :
    runCli ["/x"] ⟨2, "", " boom \n"⟩ = .error ⟨500, "boom"⟩ ∧
    runCli ["/x", "f.wav"] ⟨3, "", ""⟩ =
      .error ⟨500, "Command '/x f.wav' failed with exit code 3"⟩ := by
  constructor
  · have h := (claim_C7_process_failed ["/x"] ⟨2, "", " boom \n"⟩
      (by decide)).1 (by decide)
    rw [h]
    decide
  · have h := (claim_C7_process_failed ["/x", "f.wav"] ⟨3, "", ""⟩
      (by decide)).2.1 (by decide)
    rw [h]
    decide

/-- C8: the temporary file created by a handler is gone from disk after
the request on every exit path — success, unsupported-binary failure,
subprocess failure, and parse failure alike (for `/encode` the
validation failure precedes the file's creation). -/
theorem claim_C8_temp_file_deleted (wE : EncWorld) (fsE : FileStore)
    (text : String) (wD : DecWorld) (fsD : FileStore) (contents : String)
    (hE : storeExists fsE wE.tmpName = false)
    (hD : storeExists fsD wD.tmpName = false) :
    storeExists (encodeH wE fsE text).fs wE.tmpName = false ∧
    storeExists (decodeH wD fsD contents).fs wD.tmpName = false := by
  constructor
  · rw [encodeH]
    by_cases ht : pyStrip text = ""
    · simp only [if_pos ht]
      exact hE
    · simp only [if_neg ht]
      cases hb : buildEncodeCommand wE.encoderPath (pyStrip text)
          wE.tmpName with
      | error e => simpa using storeExists_remove _ _
      | ok ci =>
        obtain ⟨command, inputData⟩ := ci
        rcases hr : wE.runEnc command inputData with ⟨pr, written⟩
        simp only [hr]
        cases hc : runCli command pr with
        | error e2 => simpa using storeExists_remove _ _
        | ok pr2 => simpa using storeExists_remove _ _
  · rw [decodeH]
    by_cases hcny : contents = ""
    · simp only [if_pos hcny]
      exact hD
    · simp only [if_neg hcny]
      cases hc : runCli [wD.decoderPath, wD.tmpName]
          (wD.runDec [wD.decoderPath, wD.tmpName]) with
      | error e => simpa using storeExists_remove _ _
      | ok r =>
        cases hs : decodePatternSearch r.stdout with
        | none => simpa [hs] using storeExists_remove _ _
        | some m => simpa [hs] using storeExists_remove _ _

/-- Witness for C8 on concrete successful encode and decode requests. -/
theorem claim_C8_witness :
    storeExists (encodeH wEnc0 [] "hi").fs wEnc0.tmpName = false ∧
    storeExists (decodeH wDec0 [] "RIFF").fs wDec0.tmpName = false :=
  claim_C8_temp_file_deleted wEnc0 [] "hi" wDec0 [] "RIFF"
    (by decide) (by decide)

end ALAI
